import Mathlib

/-!
Shallow embedding of the photon-mapping integrator core
(`photon-mapper.cpp`, `interaction.cpp`, `ray.cpp`) of the
monte-carlo-ray-tracer repository, together with theorems settling the
spec claims.  `glm::dvec3` is modelled by `Vec3` over `ℚ`; `std::sqrt`
is passed explicitly as a function argument `sq` where the code calls it.
-/

/-- Model of `glm::dvec3`: three rational channels. -/
structure Vec3 where
  x : ℚ
  y : ℚ
  z : ℚ
deriving DecidableEq, Repr

namespace Vec3

/-- Componentwise addition (glm `operator+`). -/
instance : Add Vec3 := ⟨fun a b => ⟨a.x + b.x, a.y + b.y, a.z + b.z⟩⟩

/-- Componentwise multiplication (glm `operator*` on two vectors). -/
instance : Mul Vec3 := ⟨fun a b => ⟨a.x * b.x, a.y * b.y, a.z * b.z⟩⟩

/-- The zero vector, `glm::dvec3(0.0)`. -/
instance : Zero Vec3 := ⟨⟨0, 0, 0⟩⟩

/-- Componentwise negation. -/
instance : Neg Vec3 := ⟨fun a => ⟨-a.x, -a.y, -a.z⟩⟩

/-- Componentwise subtraction. -/
instance : Sub Vec3 := ⟨fun a b => ⟨a.x - b.x, a.y - b.y, a.z - b.z⟩⟩

/-- Scalar multiplication (glm scalar `*` vector). -/
instance : SMul ℚ Vec3 := ⟨fun c a => ⟨c * a.x, c * a.y, c * a.z⟩⟩

theorem add_def (a b : Vec3) : a + b = ⟨a.x + b.x, a.y + b.y, a.z + b.z⟩ := rfl

theorem zero_def : (0 : Vec3) = ⟨0, 0, 0⟩ := rfl

instance : AddCommMonoid Vec3 where
  add_assoc a b c := by cases a; cases b; cases c; simp [add_def]; ring_nf; trivial
  zero_add a := by cases a; simp [add_def, zero_def]
  add_zero a := by cases a; simp [add_def, zero_def]
  add_comm a b := by
    cases a; cases b
    simp only [add_def, Vec3.mk.injEq]
    exact ⟨add_comm _ _, add_comm _ _, add_comm _ _⟩
  nsmul := nsmulRec

theorem mul_def (a b : Vec3) : a * b = ⟨a.x * b.x, a.y * b.y, a.z * b.z⟩ := rfl

theorem neg_def (a : Vec3) : -a = ⟨-a.x, -a.y, -a.z⟩ := rfl

theorem sub_def (a b : Vec3) : a - b = ⟨a.x - b.x, a.y - b.y, a.z - b.z⟩ := rfl

theorem smul_def (c : ℚ) (a : Vec3) : c • a = ⟨c * a.x, c * a.y, c * a.z⟩ := rfl

/-- `glm::dot`. -/
def dot (a b : Vec3) : ℚ := a.x * b.x + a.y * b.y + a.z * b.z

theorem dot_neg_right (a b : Vec3) : dot a (-b) = -dot a b := by
  simp [dot, neg_def]; ring

/-- `glm::compMax`: the largest channel. -/
def compMax (v : Vec3) : ℚ := max v.x (max v.y v.z)

/-- `glm::compAdd`: the sum of the channels. -/
def compAdd (v : Vec3) : ℚ := v.x + v.y + v.z

/-- Division of a vector by a scalar (glm vector `/` scalar). -/
def divS (v : Vec3) (c : ℚ) : Vec3 := ⟨v.x / c, v.y / c, v.z / c⟩

/-- `glm::reflect i n = i - 2 * dot(n, i) * n`. -/
def reflect (i n : Vec3) : Vec3 := i - (2 * dot n i) • n

end Vec3

/-- `C::EPSILON`, the self-intersection bias from `constants.hpp`
(≈ 1e-7 per the spec). -/
def C.EPSILON : ℚ := 1 / 10 ^ 7

/-- Modelled from the spec: `Random::trial(p)` (from `random.hpp`, not
part of the core sources) succeeds exactly when a uniform draw `u` on
(0,1) falls below `p`. -/
def Random.trial (u p : ℚ) : Bool := u < p

/-! ## Interaction: branch selection (`Interaction::selectType`) -/

/-- `Interaction::Type`. -/
inductive IType where
  | REFLECT
  | REFRACT
  | DIFFUSE
deriving DecidableEq, Repr

/-- `Interaction::selectType` from `interaction.cpp`.  `R` stands for the
value `Fresnel::dielectric(n1, n2, dot(specular_normal, out))` already
computed, `T` for `material->transparency`, and `p` for the uniform draw
`Random::unit()`. -/
def Interaction.selectType (perfect_mirror complex_ior : Bool) (R T p : ℚ) : IType :=
  if perfect_mirror || complex_ior then
    IType.REFLECT
  else if R > p then
    IType.REFLECT
  else if R + (1 - R) * T > p then
    IType.REFRACT
  else
    IType.DIFFUSE

/-! ## Emission budgeting (`PhotonMapper::PhotonMapper`) -/

/-- `photon_emissions = static_cast<size_t>(photon_emissions * caustic_factor)`. -/
def scaledEmissions (photon_emissions : ℕ) (caustic_factor : ℚ) : ℕ :=
  ⌊(photon_emissions : ℚ) * caustic_factor⌋₊

/-- A light's emitted flux `light->material->emittance * light->area()`. -/
def lightFlux (emittance : Vec3) (area : ℚ) : Vec3 := area • emittance

/-- `photon_emissions_share = glm::compAdd(light_flux) / total_add_flux`. -/
def photonEmissionsShare (light_flux : Vec3) (total_add_flux : ℚ) : ℚ :=
  light_flux.compAdd / total_add_flux

/-- `num_light_emissions = static_cast<size_t>(photon_emissions *
photon_emissions_share)`: the C++ cast truncates the (nonnegative)
double toward zero. -/
def numLightEmissions (photon_emissions : ℕ) (light_flux : Vec3)
    (total_add_flux : ℚ) : ℕ :=
  ⌊(photon_emissions : ℚ) * photonEmissionsShare light_flux total_add_flux⌋₊

/-- The spec's wording of the emission share, for comparison with
`numLightEmissions`: `n_i = round(N · |Φ_i|₁ / Σ|Φ_j|₁)`, rounded to the
nearest integer. -/
def numLightEmissionsSpec (photon_emissions : ℕ) (light_flux : Vec3)
    (total_add_flux : ℚ) : ℤ :=
  round ((photon_emissions : ℚ) * light_flux.compAdd / total_add_flux)

/-- `photon_flux = light_flux / static_cast<double>(num_light_emissions)`. -/
def photonFlux (light_flux : Vec3) (num_light_emissions : ℕ) : Vec3 :=
  light_flux.divS (num_light_emissions : ℚ)

/-! ## Photon data (`photon-map.hpp`) -/

/-- `Photon`: flux, position and direction of travel at storage time. -/
structure PhotonS where
  flux : Vec3
  position : Vec3
  direction : Vec3
deriving DecidableEq, Repr

/-- The three per-thread photon vectors that `emitPhoton` appends to at a
single hit (`direct_vecs[thread]`, `indirect_vecs[thread]`,
`caustic_vecs[thread]`). -/
structure PhotonVecs where
  direct : List PhotonS
  indirect : List PhotonS
  caustic : List PhotonS
deriving DecidableEq, Repr

/-! ## Pass 1 storage policy (`PhotonMapper::emitPhoton`, DIFFUSE branch) -/

/-- The DIFFUSE-branch storage policy of `PhotonMapper::emitPhoton`
(photon-mapper.cpp, lines 246-261 of the later variant).  Inputs are the
per-hit data: `non_caustic_reject = 1/caustic_factor`, the incoming
ray's `depth` and `specular` flag, the two uniform draws `u1`, `u2`
consumed by the two `Random::trial(non_caustic_reject)` calls, the
carried `flux`, the hit `position` and the ray `direction`.  Returns the
updated vectors and whether a shadow-photon scan is spawned. -/
def emitPhotonDiffuseStore (non_caustic_reject : ℚ) (depth : ℕ) (specular : Bool)
    (u1 u2 : ℚ) (flux position direction : Vec3) (vecs : PhotonVecs) :
    PhotonVecs × Bool :=
  if depth = 0 ∧ Random.trial u1 non_caustic_reject then
    ({ vecs with direct :=
        vecs.direct ++ [⟨flux.divS non_caustic_reject, position, direction⟩] }, true)
  else if specular then
    ({ vecs with caustic := vecs.caustic ++ [⟨flux, position, direction⟩] }, false)
  else if Random.trial u2 non_caustic_reject then
    ({ vecs with indirect :=
        vecs.indirect ++ [⟨flux.divS non_caustic_reject, position, direction⟩] }, false)
  else
    (vecs, false)

/-! ## Russian roulette (`PhotonMapper::emitPhoton`, tail) -/

/-- `survive = std::min(ray.depth > min_ray_depth ? 0.9 : 1.0,
glm::compMax(new_flux) / glm::compMax(flux))`. -/
def rrSurvive (min_ray_depth depth : ℕ) (flux new_flux : Vec3) : ℚ :=
  min (if depth > min_ray_depth then (9 : ℚ) / 10 else 1)
    (new_flux.compMax / flux.compMax)

/-- The tail of `PhotonMapper::emitPhoton`: compute `new_flux = flux *
BRDF`, the survival probability, and either the flux carried into the
recursive call (`new_flux / survive`) or `none` when the path stops.
`u` is the uniform draw consumed by `Random::trial(survive)`. -/
def emitPhotonRR (min_ray_depth depth : ℕ) (flux BRDF : Vec3) (u : ℚ) : Option Vec3 :=
  let new_flux := flux * BRDF
  let survive := rrSurvive min_ray_depth depth flux new_flux
  if Random.trial u survive then some (new_flux.divS survive) else none

/-! ## Pass 2 density estimators -/

/-- One k-NN search hit (`SearchResult<Photon>`): the photon and its
squared distance to the query point. -/
structure SearchResult where
  data : PhotonS
  distance2 : ℚ
deriving DecidableEq, Repr

/-- The accumulation loop of `PhotonMapper::estimateRadiance`: photons
arriving from the wrong side (`dot(p.data.direction, cs.normal) >= 0`)
are skipped, the rest contribute `p.data.flux * BRDF(p.data.direction)`.
`brdf` stands for `interaction.BRDF`. -/
def radianceSum (brdf : Vec3 → Vec3) (nrm : Vec3) : List SearchResult → Vec3
  | [] => 0
  | p :: ps =>
    (if Vec3.dot p.data.direction nrm ≥ 0 then 0
     else p.data.flux * brdf p.data.direction) + radianceSum brdf nrm ps

/-- `PhotonMapper::estimateRadiance` on an already-computed k-NN result
list: zero when empty, otherwise the accumulated sum divided by the last
(farthest) hit's squared distance. -/
def estimateRadiance (brdf : Vec3 → Vec3) (nrm : Vec3)
    (photons : List SearchResult) : Vec3 :=
  match photons.getLast? with
  | none => 0
  | some pk => (radianceSum brdf nrm photons).divS pk.distance2

/-- The accumulation loop of `PhotonMapper::estimateCausticRadiance`:
wrong-side photons are skipped, the rest contribute
`p.data.flux * BRDF(p.data.direction) * wp` with the cone-filter weight
`wp = max(0, 1 - sqrt(p.distance2 * inv_max_squared_radius))`.  `sq`
stands for `std::sqrt`. -/
def causticSum (sq : ℚ → ℚ) (brdf : Vec3 → Vec3) (nrm : Vec3) (inv : ℚ) :
    List SearchResult → Vec3
  | [] => 0
  | p :: ps =>
    (if Vec3.dot p.data.direction nrm ≥ 0 then 0
     else (max 0 (1 - sq (p.distance2 * inv))) • (p.data.flux * brdf p.data.direction))
      + causticSum sq brdf nrm inv ps

/-- `PhotonMapper::estimateCausticRadiance` on the k-NN result list
returned by `linear_caustic_map.knnSearch`: zero when empty, otherwise
`3.0 * radiance * inv_max_squared_radius` with
`inv_max_squared_radius = 1.0 / photons.back().distance2`. -/
def estimateCausticRadiance (sq : ℚ → ℚ) (brdf : Vec3 → Vec3) (nrm : Vec3)
    (photons : List SearchResult) : Vec3 :=
  match photons.getLast? with
  | none => 0
  | some pk =>
    let inv := 1 / pk.distance2
    (3 * inv) • causticSum sq brdf nrm inv photons

/-! ## Pass 2 diffuse-branch continuation decision (`PhotonMapper::sampleRay`) -/

/-- `min_bounce_distance = 5.0 * max_radius` (set in the `PhotonMapper`
constructor). -/
def minBounceDistance (max_radius : ℚ) : ℚ := 5 * max_radius

/-- The three ways the DIFFUSE branch of `PhotonMapper::sampleRay` can
proceed: continue immediately with a recursive diffuse bounce
(`evaluateDiffuse` taken on the first test), fall back to the same
recursive bounce from inside the termination attempt, or terminate with
the photon-map density estimates. -/
inductive DiffuseDecision where
  | continueImmediate
  | continueFallback
  | terminateEstimate
deriving DecidableEq, Repr

/-- The control flow of the DIFFUSE branch of `PhotonMapper::sampleRay`
(photon-mapper.cpp, later variant, lines 364-392).  `n_indirect` is the
size of the k-NN result from the indirect map, `direct_empty` whether
the k-NN result from the direct map is empty, `has_shadow` the value of
`hasShadowPhotons(interaction)`. -/
def sampleRayDiffuseDecision (direct_visualization : Bool) (depth : ℕ)
    (specular : Bool) (t max_radius : ℚ) (n_indirect k : ℕ)
    (direct_empty use_shadow_photons has_shadow : Bool) : DiffuseDecision :=
  if ¬direct_visualization ∧ (depth = 0 ∨ specular ∨ t ≥ minBounceDistance max_radius) then
    DiffuseDecision.continueImmediate
  else if n_indirect = k ∨ direct_visualization then
    if direct_empty ∧ ¬direct_visualization ∧ use_shadow_photons ∧ ¬has_shadow then
      DiffuseDecision.continueFallback
    else
      DiffuseDecision.terminateEstimate
  else
    DiffuseDecision.continueFallback

/-! ## Interaction construction (`Interaction::Interaction`) -/

/-- The outputs of the `Interaction` constructor that the normal-facing
invariant is about. -/
structure InteractionNormals where
  normal : Vec3
  shading_normal : Vec3
  inside : Bool
  n2 : ℚ
deriving DecidableEq, Repr

/-- The normal/medium logic of `Interaction::Interaction`
(interaction.cpp): compute `cos_theta = dot(ray.direction, normal)`,
pick the medium of the far side, take the interpolated shading normal
when `interpolate` is set unless its side disagrees with the geometric
normal's, and flip both normals when `cos_theta > 0`.  `geom_n` is
`isect.surface->normal(position)`, `interp_n` is
`isect.surface->interpolatedNormal(isect.uv)`, `opq` is
`material->opaque`, `mat_ior` is `material->ior` and `ext_ior` is
`material->external_ior`. -/
def interactionCtor (ray_dir geom_n : Vec3) (interpolate : Bool) (interp_n : Vec3)
    (opq : Bool) (mat_ior ext_ior : ℚ) : InteractionNormals :=
  let cos_theta := Vec3.dot ray_dir geom_n
  let inside := ¬(cos_theta < 0 ∨ opq)
  let n2 := if cos_theta < 0 ∨ opq then mat_ior else ext_ior
  let s0 :=
    if interpolate then
      if (cos_theta < 0) ≠ (Vec3.dot ray_dir interp_n < 0) then geom_n else interp_n
    else geom_n
  if cos_theta > 0 then
    ⟨-geom_n, -s0, inside, n2⟩
  else
    ⟨geom_n, s0, inside, n2⟩

/-! ## Ray refraction (`Ray::refractSpecular`) -/

/-- The mutable state of a `Ray` that `refractSpecular` updates. -/
structure RayS where
  start : Vec3
  direction : Vec3
  medium_ior : ℚ
  specular : Bool
deriving DecidableEq, Repr

/-- `Ray::refractSpecular` from `ray.cpp`.  `inDir` is the incoming
direction `in`, `specular_normal` and `nrm` are `ia.specular_normal` and
`ia.normal`, `shading_normal` is `ia.shading_normal`, and `sq` stands
for `std::sqrt` (only applied to the nonnegative `k`).  Returns the
updated ray together with the hemisphere-check boolean the C++ function
returns. -/
def Ray.refractSpecular (sq : ℚ → ℚ) (r : RayS) (inDir specular_normal nrm shading_normal : Vec3)
    (n1 n2 : ℚ) : RayS × Bool :=
  let ior_quotient := n1 / n2
  let cos_theta := Vec3.dot specular_normal inDir
  let k := 1 - ior_quotient ^ 2 * (1 - cos_theta ^ 2)
  if k ≥ 0 then
    let direction := ior_quotient • inDir - (ior_quotient * cos_theta + sq k) • specular_normal
    (⟨r.start - C.EPSILON • nrm, direction, n2, true⟩,
     Vec3.dot shading_normal direction < 0)
  else
    let direction := inDir - (2 * cos_theta) • specular_normal
    (⟨r.start + C.EPSILON • nrm, direction, n1, true⟩,
     Vec3.dot shading_normal direction > 0)

/-! ## Theorems -/

/-- C2: `selectType` draws `p` uniform in (0,1) and returns REFLECT when
the material is a perfect mirror or has a complex IOR; otherwise, with
`R` the dielectric Fresnel term and `T` the transparency, it returns
REFLECT if `R > p`, REFRACT if `R + (1-R)*T > p`, and DIFFUSE otherwise;
the three branch probabilities `R`, `(1-R)·T` and `(1-R)·(1-T)` sum
to 1. -/
theorem selectType_three_way_split (pm ci : Bool) (R T p : ℚ) :
    ((pm = true ∨ ci = true) → Interaction.selectType pm ci R T p = IType.REFLECT) ∧
    (Interaction.selectType false false R T p = IType.REFLECT ↔ R > p) ∧
    (Interaction.selectType false false R T p = IType.REFRACT ↔
      ¬(R > p) ∧ R + (1 - R) * T > p) ∧
    (Interaction.selectType false false R T p = IType.DIFFUSE ↔
      ¬(R > p) ∧ ¬(R + (1 - R) * T > p)) ∧
    R + (1 - R) * T + (1 - R) * (1 - T) = 1 := by
  unfold Interaction.selectType
  refine ⟨?_, ?_, ?_, ?_, by ring⟩
  · rintro (rfl | rfl) <;> simp
  · by_cases h1 : R > p
    · simp [h1]
    · by_cases h2 : R + (1 - R) * T > p <;> simp [h1, h2]
  · by_cases h1 : R > p
    · simp [h1]
    · by_cases h2 : R + (1 - R) * T > p <;> simp [h1, h2]
  · by_cases h1 : R > p
    · simp [h1]
    · by_cases h2 : R + (1 - R) * T > p <;> simp [h1, h2]

/-- Witness for C2 at concrete inputs: a perfect mirror reflects, and a
dielectric with `R = 1/2 > p = 1/4` reflects. -/
theorem selectType_three_way_split_witness :
    Interaction.selectType true false 0 0 0 = IType.REFLECT ∧
    Interaction.selectType false false (1/2) (1/2) (1/4) = IType.REFLECT :=
  ⟨(selectType_three_way_split true false 0 0 0).1 (Or.inl rfl),
   (selectType_three_way_split false false (1/2) (1/2) (1/4)).2.1.mpr (by norm_num)⟩

/-- C6 counterexample: the constructor truncates the emission share
(`static_cast<size_t>`), it does not round to nearest.  With target
`N = 3` and an emitter holding half the total flux the code assigns
`⌊1.5⌋ = 1` emission while round-to-nearest gives 2. -/
theorem emission_budget_not_rounded :
    numLightEmissions 3 ⟨1, 0, 0⟩ 2 = 1 ∧
    numLightEmissionsSpec 3 ⟨1, 0, 0⟩ 2 = 2 := by
  constructor
  · unfold numLightEmissions photonEmissionsShare Vec3.compAdd
    norm_num [Nat.floor_eq_iff]
  · unfold numLightEmissionsSpec Vec3.compAdd
    norm_num [round_eq]

/-- C6 (amended): every emitter is assigned
`n_i = ⌊N · |Φ_i|₁ / Σ|Φ_j|₁⌋` photon emissions (truncated, not
rounded), its channel sum equalling the L1 norm when the flux channels
are nonnegative, and each of its photons carries flux `Φ_i / n_i`. -/
theorem emission_budget_share (N : ℕ) (lf : Vec3) (total : ℚ) (n : ℕ) :
    numLightEmissions N lf total = ⌊(N : ℚ) * lf.compAdd / total⌋₊ ∧
    (0 ≤ lf.x → 0 ≤ lf.y → 0 ≤ lf.z → lf.compAdd = |lf.x| + |lf.y| + |lf.z|) ∧
    photonFlux lf n = ⟨lf.x / n, lf.y / n, lf.z / n⟩ := by
  refine ⟨?_, ?_, rfl⟩
  · unfold numLightEmissions photonEmissionsShare
    rw [mul_div_assoc]
  · intro hx hy hz
    unfold Vec3.compAdd
    rw [abs_of_nonneg hx, abs_of_nonneg hy, abs_of_nonneg hz]

/-- Witness for C6 (amended) at a concrete emitter. -/
theorem emission_budget_share_witness :
    numLightEmissions 10 ⟨2, 1, 0⟩ 6 = ⌊(10 : ℚ) * (Vec3.compAdd ⟨2, 1, 0⟩) / 6⌋₊ ∧
    Vec3.compAdd ⟨2, 1, 0⟩ = |(2 : ℚ)| + |(1 : ℚ)| + |(0 : ℚ)| ∧
    photonFlux ⟨2, 1, 0⟩ 5 = ⟨2 / 5, 1 / 5, 0 / 5⟩ := by
  have h := emission_budget_share 10 ⟨2, 1, 0⟩ 6 5
  exact ⟨h.1, h.2.1 (by norm_num) (by norm_num) (by norm_num), h.2.2⟩

/-- C9: on an empty k-NN result both `estimateRadiance` and
`estimateCausticRadiance` return zero radiance; the division by the
farthest neighbour's squared distance sits in the non-empty branch and
is never reached. -/
theorem estimators_empty_return_zero (sq : ℚ → ℚ) (brdf : Vec3 → Vec3) (nrm : Vec3) :
    estimateRadiance brdf nrm [] = 0 ∧ estimateCausticRadiance sq brdf nrm [] = 0 :=
  ⟨rfl, rfl⟩

/-- C1: at a diffuse hit of Pass 1 the stored photon lands in at most
one map.  With `non_caustic_reject = 1/caustic_factor`: at depth 0 with
`u1 < 1/caustic_factor` it goes to the direct map scaled by
`caustic_factor` and a shadow-photon scan is spawned; otherwise a
specular-flagged ray stores it unscaled in the caustic map; otherwise
`u2 < 1/caustic_factor` stores it in the indirect map scaled by
`caustic_factor`; otherwise nothing is stored.  The total number of
stored photons grows by at most one. -/
theorem emitPhoton_diffuse_classification (cf ncr : ℚ) (depth : ℕ) (specular : Bool)
    (u1 u2 : ℚ) (flux pos dir : Vec3) (vecs : PhotonVecs)
    (_hcf : 0 < cf) (hncr : ncr = 1 / cf) :
    (depth = 0 → u1 < ncr →
      emitPhotonDiffuseStore ncr depth specular u1 u2 flux pos dir vecs =
        ({ vecs with direct := vecs.direct ++ [⟨cf • flux, pos, dir⟩] }, true)) ∧
    (¬(depth = 0 ∧ u1 < ncr) → specular = true →
      emitPhotonDiffuseStore ncr depth specular u1 u2 flux pos dir vecs =
        ({ vecs with caustic := vecs.caustic ++ [⟨flux, pos, dir⟩] }, false)) ∧
    (¬(depth = 0 ∧ u1 < ncr) → specular = false → u2 < ncr →
      emitPhotonDiffuseStore ncr depth specular u1 u2 flux pos dir vecs =
        ({ vecs with indirect := vecs.indirect ++ [⟨cf • flux, pos, dir⟩] }, false)) ∧
    (¬(depth = 0 ∧ u1 < ncr) → specular = false → ¬(u2 < ncr) →
      emitPhotonDiffuseStore ncr depth specular u1 u2 flux pos dir vecs = (vecs, false)) ∧
    ((emitPhotonDiffuseStore ncr depth specular u1 u2 flux pos dir vecs).1.direct.length +
      (emitPhotonDiffuseStore ncr depth specular u1 u2 flux pos dir vecs).1.indirect.length +
      (emitPhotonDiffuseStore ncr depth specular u1 u2 flux pos dir vecs).1.caustic.length ≤
      vecs.direct.length + vecs.indirect.length + vecs.caustic.length + 1) := by
  have hdiv : flux.divS ncr = cf • flux := by
    subst hncr
    simp [Vec3.divS, Vec3.smul_def, one_div, div_inv_eq_mul, mul_comm]
  refine ⟨?_, ?_, ?_, ?_, ?_⟩
  · intro h0 h1
    unfold emitPhotonDiffuseStore
    rw [if_pos ⟨h0, by simpa [Random.trial] using h1⟩, hdiv]
  · intro hn hs
    unfold emitPhotonDiffuseStore
    rw [if_neg (by simpa [Random.trial] using hn), if_pos hs]
  · intro hn hs h2
    unfold emitPhotonDiffuseStore
    rw [if_neg (by simpa [Random.trial] using hn), if_neg (by simp [hs]),
      if_pos (by simpa [Random.trial] using h2), hdiv]
  · intro hn hs h2
    unfold emitPhotonDiffuseStore
    rw [if_neg (by simpa [Random.trial] using hn), if_neg (by simp [hs]),
      if_neg (by simpa [Random.trial] using h2)]
  · unfold emitPhotonDiffuseStore
    split
    · simp; omega
    split
    · simp; omega
    split
    · simp; omega
    · simp

/-- Witness for C1: with `caustic_factor = 2`, at depth 0 and a draw
`1/4 < 1/2`, the photon is stored in the direct map with doubled flux
and a shadow scan is spawned. -/
theorem emitPhoton_diffuse_classification_witness :
    emitPhotonDiffuseStore (1/2) 0 false (1/4) 0 ⟨1, 1, 1⟩ 0 0 ⟨[], [], []⟩ =
      (⟨[⟨(2 : ℚ) • (⟨1, 1, 1⟩ : Vec3), 0, 0⟩], [], []⟩, true) :=
  (emitPhoton_diffuse_classification 2 (1/2) 0 false (1/4) 0 ⟨1, 1, 1⟩ 0 0 ⟨[], [], []⟩
    (by norm_num) (by norm_num)).1 rfl (by norm_num)

/-- C4: the Russian-roulette step of `emitPhoton` uses survival
probability `s = min(depth > min_depth ? 0.9 : 1.0,
max_channel(new_flux) / max_channel(flux))` with
`new_flux = flux * BRDF`; when the trial succeeds the recursion carries
`new_flux / s`, otherwise the path stops. -/
theorem emitPhoton_russian_roulette (m d : ℕ) (flux BRDF : Vec3) (u : ℚ) :
    rrSurvive m d flux (flux * BRDF) =
      min (if d > m then (9 : ℚ) / 10 else 1)
        (Vec3.compMax (flux * BRDF) / Vec3.compMax flux) ∧
    (u < rrSurvive m d flux (flux * BRDF) →
      emitPhotonRR m d flux BRDF u =
        some ((flux * BRDF).divS (rrSurvive m d flux (flux * BRDF)))) ∧
    (¬ u < rrSurvive m d flux (flux * BRDF) →
      emitPhotonRR m d flux BRDF u = none) := by
  refine ⟨rfl, ?_, ?_⟩
  · intro h
    simp [emitPhotonRR, Random.trial, h]
  · intro h
    simp [emitPhotonRR, Random.trial, h]

/-- Witness for C4: unit flux and unit BRDF at depth 0 give survival 1
and the draw 1/2 survives, carrying `new_flux / 1`. -/
theorem emitPhoton_russian_roulette_witness :
    emitPhotonRR 0 0 ⟨1, 1, 1⟩ ⟨1, 1, 1⟩ (1/2) =
      some (((⟨1, 1, 1⟩ : Vec3) * ⟨1, 1, 1⟩).divS
        (rrSurvive 0 0 ⟨1, 1, 1⟩ ((⟨1, 1, 1⟩ : Vec3) * ⟨1, 1, 1⟩))) :=
  (emitPhoton_russian_roulette 0 0 ⟨1, 1, 1⟩ ⟨1, 1, 1⟩ (1/2)).2.1
    (by norm_num [rrSurvive, Vec3.compMax, Vec3.mul_def])

/-- C10: whenever the incoming flux has a positive maximum channel and
the BRDF is componentwise nonnegative, the Russian-roulette survival
value lies in [0, 1]. -/
theorem rrSurvive_valid_probability (m d : ℕ) (flux brdf : Vec3)
    (hpos : 0 < flux.compMax) (hx : 0 ≤ brdf.x) (hy : 0 ≤ brdf.y) (hz : 0 ≤ brdf.z) :
    0 ≤ rrSurvive m d flux (flux * brdf) ∧ rrSurvive m d flux (flux * brdf) ≤ 1 := by
  have hxyz : 0 < flux.x ∨ 0 < flux.y ∨ 0 < flux.z := by
    have h := hpos
    unfold Vec3.compMax at h
    rcases lt_max_iff.mp h with h' | h'
    · exact Or.inl h'
    · rcases lt_max_iff.mp h' with h'' | h''
      · exact Or.inr (Or.inl h'')
      · exact Or.inr (Or.inr h'')
  have hnn : 0 ≤ (flux * brdf).compMax := by
    simp only [Vec3.mul_def, Vec3.compMax, le_max_iff]
    rcases hxyz with h | h | h
    · exact Or.inl (mul_nonneg h.le hx)
    · exact Or.inr (Or.inl (mul_nonneg h.le hy))
    · exact Or.inr (Or.inr (mul_nonneg h.le hz))
  constructor
  · refine le_min ?_ (div_nonneg hnn hpos.le)
    split <;> norm_num
  · refine le_trans (min_le_left _ _) ?_
    split <;> norm_num

/-- Witness for C10 at unit flux and unit BRDF. -/
theorem rrSurvive_valid_probability_witness :
    0 ≤ rrSurvive 0 0 ⟨1, 1, 1⟩ ((⟨1, 1, 1⟩ : Vec3) * ⟨1, 1, 1⟩) ∧
    rrSurvive 0 0 ⟨1, 1, 1⟩ ((⟨1, 1, 1⟩ : Vec3) * ⟨1, 1, 1⟩) ≤ 1 :=
  rrSurvive_valid_probability 0 0 ⟨1, 1, 1⟩ ⟨1, 1, 1⟩
    (by norm_num [Vec3.compMax]) (by norm_num) (by norm_num) (by norm_num)

/-- C5: `refractSpecular` applies Snell's law with `η = n1/n2`; under
total internal reflection (`1 - η²(1 - cos²θ) < 0`) it degrades to
mirror reflection and keeps the medium IOR at `n1`; otherwise it offsets
the origin by `-ε·normal`, sets the medium IOR to `n2`, and refracts
with direction `η·in - (η·cosθ + √k)·n̂`. -/
theorem refractSpecular_snell (sq : ℚ → ℚ) (r : RayS) (inDir sn nrm shn : Vec3)
    (n1 n2 : ℚ) :
    (1 - (n1 / n2) ^ 2 * (1 - Vec3.dot sn inDir ^ 2) < 0 →
      (Ray.refractSpecular sq r inDir sn nrm shn n1 n2).1.direction =
        inDir - (2 * Vec3.dot sn inDir) • sn ∧
      (Ray.refractSpecular sq r inDir sn nrm shn n1 n2).1.medium_ior = n1 ∧
      (Ray.refractSpecular sq r inDir sn nrm shn n1 n2).1.start =
        r.start + C.EPSILON • nrm) ∧
    (0 ≤ 1 - (n1 / n2) ^ 2 * (1 - Vec3.dot sn inDir ^ 2) →
      (Ray.refractSpecular sq r inDir sn nrm shn n1 n2).1.start =
        r.start - C.EPSILON • nrm ∧
      (Ray.refractSpecular sq r inDir sn nrm shn n1 n2).1.medium_ior = n2 ∧
      (Ray.refractSpecular sq r inDir sn nrm shn n1 n2).1.direction =
        (n1 / n2) • inDir -
          ((n1 / n2) * Vec3.dot sn inDir +
            sq (1 - (n1 / n2) ^ 2 * (1 - Vec3.dot sn inDir ^ 2))) • sn) := by
  constructor
  · intro h
    simp only [Ray.refractSpecular]
    rw [if_neg (not_le.mpr h)]
    exact ⟨rfl, rfl, rfl⟩
  · intro h
    simp only [Ray.refractSpecular]
    rw [if_pos h]
    exact ⟨rfl, rfl, rfl⟩

/-- Witness for C5: entering a denser medium at normal-plane incidence
keeps `n1 = 2` under total internal reflection, and the refracting case
sets the medium to `n2 = 2`. -/
theorem refractSpecular_snell_witness :
    (Ray.refractSpecular id ⟨0, 0, 1, false⟩ ⟨1, 0, 0⟩ ⟨0, 0, 1⟩ ⟨0, 0, 1⟩ ⟨0, 0, 1⟩
      2 1).1.medium_ior = 2 ∧
    (Ray.refractSpecular id ⟨0, 0, 1, false⟩ ⟨1, 0, 0⟩ ⟨0, 0, 1⟩ ⟨0, 0, 1⟩ ⟨0, 0, 1⟩
      1 2).1.medium_ior = 2 :=
  ⟨((refractSpecular_snell id ⟨0, 0, 1, false⟩ ⟨1, 0, 0⟩ ⟨0, 0, 1⟩ ⟨0, 0, 1⟩ ⟨0, 0, 1⟩
      2 1).1 (by norm_num [Vec3.dot])).2.1,
   ((refractSpecular_snell id ⟨0, 0, 1, false⟩ ⟨1, 0, 0⟩ ⟨0, 0, 1⟩ ⟨0, 0, 1⟩ ⟨0, 0, 1⟩
      1 2).2 (by norm_num [Vec3.dot])).2.1⟩

/-- C8 counterexample: at exactly grazing geometric incidence
(`dot(ray.dir, geometric normal) = 0`) an interpolated shading normal
with `dot(ray.dir, shading normal) > 0` survives construction unflipped,
so the shading normal does not face the incoming ray. -/
theorem interaction_shading_normal_counterexample :
    ¬ Vec3.dot ⟨1, 0, 0⟩
        (interactionCtor ⟨1, 0, 0⟩ ⟨0, 0, 1⟩ true ⟨3/5, 0, 4/5⟩ false 1 1).shading_normal ≤ 0 := by
  norm_num [interactionCtor, Vec3.dot]

/-- C8 (amended): after interaction construction the geometric normal
always faces the incoming ray (`dot(ray.dir, normal) ≤ 0`), and the
shading normal does too whenever the geometric incidence is not exactly
grazing (`dot(ray.dir, geometric normal) ≠ 0`). -/
theorem interaction_normals_face_ray (ray_dir geom_n : Vec3) (interpolate : Bool)
    (interp_n : Vec3) (opq : Bool) (mi ei : ℚ) :
    Vec3.dot ray_dir
      (interactionCtor ray_dir geom_n interpolate interp_n opq mi ei).normal ≤ 0 ∧
    (Vec3.dot ray_dir geom_n ≠ 0 →
      Vec3.dot ray_dir
        (interactionCtor ray_dir geom_n interpolate interp_n opq mi ei).shading_normal ≤ 0) := by
  simp only [interactionCtor]
  by_cases hc : Vec3.dot ray_dir geom_n > 0
  · rw [if_pos hc]
    refine ⟨?_, fun _ => ?_⟩
    · rw [Vec3.dot_neg_right]
      linarith
    · rw [Vec3.dot_neg_right, neg_nonpos]
      by_cases hi : interpolate
      · rw [if_pos hi]
        by_cases hd : Vec3.dot ray_dir interp_n < 0
        · rw [if_pos (by simp [not_lt.mpr hc.le, hd])]
          linarith
        · rw [if_neg (by simp [not_lt.mpr hc.le, hd])]
          linarith
      · rw [if_neg hi]
        linarith
  · rw [if_neg hc]
    have hle : Vec3.dot ray_dir geom_n ≤ 0 := not_lt.mp hc
    refine ⟨hle, fun hne => ?_⟩
    have hlt : Vec3.dot ray_dir geom_n < 0 := lt_of_le_of_ne hle hne
    by_cases hi : interpolate
    · rw [if_pos hi]
      by_cases hd : Vec3.dot ray_dir interp_n < 0
      · rw [if_neg (by simp [hlt, hd])]
        linarith
      · rw [if_pos (by simp [hlt, hd])]
        linarith
    · rw [if_neg hi]
      linarith

/-- Witness for C8 (amended) at a head-on hit of a flat surface. -/
theorem interaction_normals_face_ray_witness :
    Vec3.dot ⟨0, 0, -1⟩
      (interactionCtor ⟨0, 0, -1⟩ ⟨0, 0, 1⟩ false ⟨0, 0, 1⟩ false 1 1).normal ≤ 0 ∧
    Vec3.dot ⟨0, 0, -1⟩
      (interactionCtor ⟨0, 0, -1⟩ ⟨0, 0, 1⟩ false ⟨0, 0, 1⟩ false 1 1).shading_normal ≤ 0 :=
  ⟨(interaction_normals_face_ray ⟨0, 0, -1⟩ ⟨0, 0, 1⟩ false ⟨0, 0, 1⟩ false 1 1).1,
   (interaction_normals_face_ray ⟨0, 0, -1⟩ ⟨0, 0, 1⟩ false ⟨0, 0, 1⟩ false 1 1).2
     (by norm_num [Vec3.dot])⟩

/-- C3 counterexample: with `direct_visualization = true` an underfilled
indirect neighbourhood (0 of k = 50 photons) does NOT fall back to a
recursive bounce — the code terminates with the photon-map estimate. -/
theorem sampleRay_direct_visualization_counterexample :
    (0 : ℕ) < 50 ∧
    sampleRayDiffuseDecision true 1 false 0 1 0 50 false true true =
      DiffuseDecision.terminateEstimate := by
  constructor
  · norm_num
  · norm_num [sampleRayDiffuseDecision, minBounceDistance]

/-- C3 (amended): the DIFFUSE branch of `sampleRay` continues
immediately with a recursive diffuse bounce exactly when
`direct_visualization` is false and (`ray.depth == 0`, or
`ray.specular`, or `t ≥ min_bounce_distance = 5·max_radius`); and when
`direct_visualization` is false the termination attempt falls back to
continuing whenever fewer than `k` indirect photons are returned. -/
theorem sampleRay_diffuse_continuation (dv : Bool) (depth : ℕ) (spec : Bool)
    (t maxr : ℚ) (ni k : ℕ) (de us hs : Bool) :
    (sampleRayDiffuseDecision dv depth spec t maxr ni k de us hs =
        DiffuseDecision.continueImmediate ↔
      (dv = false ∧ (depth = 0 ∨ spec = true ∨ minBounceDistance maxr ≤ t))) ∧
    minBounceDistance maxr = 5 * maxr ∧
    (dv = false → ¬(depth = 0 ∨ spec = true ∨ minBounceDistance maxr ≤ t) → ni < k →
      sampleRayDiffuseDecision dv depth spec t maxr ni k de us hs =
        DiffuseDecision.continueFallback) := by
  refine ⟨?_, rfl, ?_⟩
  · cases dv
    · by_cases hcond : depth = 0 ∨ spec = true ∨ minBounceDistance maxr ≤ t
      · simp [sampleRayDiffuseDecision, hcond]
      · simp only [sampleRayDiffuseDecision]
        rw [if_neg (by rintro ⟨-, h2⟩; exact hcond h2)]
        simp only [eq_self_iff_true, true_and]
        constructor
        · intro h
          exfalso
          revert h
          split
          · split <;> simp
          · simp
        · intro h
          exact absurd h hcond
    · simp [sampleRayDiffuseDecision]
  · intro hdv hcond hlt
    subst hdv
    simp only [sampleRayDiffuseDecision]
    rw [if_neg (by rintro ⟨-, h2⟩; exact hcond h2),
      if_neg (by simp [Nat.ne_of_lt hlt])]

/-- Witness for C3 (amended): a camera ray (`depth = 0`) continues
immediately; a deep non-specular ray near the surface with an empty
indirect neighbourhood falls back to continuing. -/
theorem sampleRay_diffuse_continuation_witness :
    sampleRayDiffuseDecision false 0 false 0 1 0 50 false true false =
      DiffuseDecision.continueImmediate ∧
    sampleRayDiffuseDecision false 1 false 0 1 0 50 false true false =
      DiffuseDecision.continueFallback :=
  ⟨(sampleRay_diffuse_continuation false 0 false 0 1 0 50 false true false).1.mpr
     ⟨rfl, Or.inl rfl⟩,
   (sampleRay_diffuse_continuation false 1 false 0 1 0 50 false true false).2.2 rfl
     (by norm_num [minBounceDistance]) (by norm_num)⟩

/-- The caustic accumulation loop equals a filtered, weighted sum over
the photons arriving from the front side. -/
theorem causticSum_eq_filter_map (sq : ℚ → ℚ) (brdf : Vec3 → Vec3) (nrm : Vec3)
    (inv : ℚ) (l : List SearchResult) :
    causticSum sq brdf nrm inv l =
      ((l.filter fun p => decide (Vec3.dot p.data.direction nrm < 0)).map
        (fun p => (max 0 (1 - sq (p.distance2 * inv))) •
          (p.data.flux * brdf p.data.direction))).sum := by
  induction l with
  | nil => rfl
  | cons p ps ih =>
    by_cases h : Vec3.dot p.data.direction nrm < 0
    · rw [causticSum, if_neg (not_le.mpr h), List.filter_cons,
        if_pos (by simpa using h), List.map_cons, List.sum_cons, ih]
    · rw [causticSum, if_pos (not_lt.mp h), List.filter_cons,
        if_neg (by simpa using h), ih, zero_add]

/-- C7: on a non-empty caustic k-NN result whose last entry is `pk`,
`estimateCausticRadiance` sets `r² = pk.distance2`, skips every photon
with `dot(photon.direction, normal) ≥ 0`, weights the rest by
`wp = max(0, 1 - sqrt(d²/r²))`, accumulates
`photon.flux · BRDF(photon.direction) · wp`, and returns `3·Σ / r²`. -/
theorem estimateCaustic_cone_filter (sq : ℚ → ℚ) (brdf : Vec3 → Vec3) (nrm : Vec3)
    (photons : List SearchResult) (pk : SearchResult)
    (hlast : photons.getLast? = some pk) :
    estimateCausticRadiance sq brdf nrm photons =
      (3 / pk.distance2) •
        ((photons.filter fun p => decide (Vec3.dot p.data.direction nrm < 0)).map
          (fun p => (max 0 (1 - sq (p.distance2 / pk.distance2))) •
            (p.data.flux * brdf p.data.direction))).sum := by
  simp only [estimateCausticRadiance, hlast, causticSum_eq_filter_map, mul_one_div]

/-- Witness for C7 on a one-photon caustic neighbourhood. -/
theorem estimateCaustic_cone_filter_witness :
    estimateCausticRadiance id (fun _ => ⟨1, 1, 1⟩) ⟨0, 0, 1⟩
        [⟨⟨⟨1, 1, 1⟩, 0, ⟨0, 0, -1⟩⟩, 1⟩] =
      (3 / (1 : ℚ)) •
        (([(⟨⟨⟨1, 1, 1⟩, 0, ⟨0, 0, -1⟩⟩, 1⟩ : SearchResult)].filter
            fun p => decide (Vec3.dot p.data.direction ⟨0, 0, 1⟩ < 0)).map
          (fun p => (max 0 (1 - id (p.distance2 / 1))) •
            (p.data.flux * (fun _ => (⟨1, 1, 1⟩ : Vec3)) p.data.direction))).sum :=
  estimateCaustic_cone_filter id (fun _ => ⟨1, 1, 1⟩) ⟨0, 0, 1⟩
    [⟨⟨⟨1, 1, 1⟩, 0, ⟨0, 0, -1⟩⟩, 1⟩] ⟨⟨⟨1, 1, 1⟩, 0, ⟨0, 0, -1⟩⟩, 1⟩ rfl
